import Mathlib

/-!
Shallow embedding of the `kubernetes-essential-containers` controller
(package `controller`, files `pod_controller.go` in its two variants:
the pod-delete variant and the ephemeral-kill-container-inject variant).

The data model mirrors the fields of `corev1.Pod` that the controller
reads or writes; machine-level concerns (JSON bytes, the live API server)
are modelled as explicit parameters.
-/

namespace EssentialContainers

/-- Model of `corev1.ContainerStateRunning` (the controller only tests the
pointer for nil; `startedAt` stands for the unused `StartedAt` field). -/
structure ContainerStateRunning where
  startedAt : Nat
deriving DecidableEq, Repr

/-- Model of `corev1.ContainerStateWaiting`. -/
structure ContainerStateWaiting where
  reason : String
  message : String
deriving DecidableEq, Repr

/-- Model of `corev1.ContainerStateTerminated`. -/
structure ContainerStateTerminated where
  exitCode : Int
  signal : Int
  reason : String
  message : String
deriving DecidableEq, Repr

/-- Model of `corev1.ContainerState`: three nilable pointers, one per
lifecycle phase.  The Go zero value has all three nil. -/
structure ContainerState where
  running : Option ContainerStateRunning
  waiting : Option ContainerStateWaiting
  terminated : Option ContainerStateTerminated
deriving DecidableEq, Repr

/-- The Go zero value `corev1.ContainerState{}`. -/
def zeroContainerState : ContainerState :=
  { running := none, waiting := none, terminated := none }

/-- Model of `corev1.ContainerStatus`: the fields the controller reads. -/
structure ContainerStatus where
  name : String
  state : ContainerState
deriving DecidableEq, Repr

/-- Model of `corev1.PodStatus` restricted to `ContainerStatuses`. -/
structure PodStatus where
  containerStatuses : List ContainerStatus
deriving DecidableEq, Repr

/-- Model of `corev1.Capabilities` (only `Add` is set by the controller). -/
structure Capabilities where
  add : List String
deriving DecidableEq, Repr

/-- Model of `corev1.SecurityContext` restricted to `Capabilities`. -/
structure SecurityContext where
  capabilities : Option Capabilities
deriving DecidableEq, Repr

/-- Model of `corev1.ResourceRequirements` (set to its zero value by the
controller). -/
structure ResourceRequirements where
  limits : List (String × Nat)
  requests : List (String × Nat)
deriving DecidableEq, Repr

/-- Model of `corev1.EphemeralContainer` via its `EphemeralContainerCommon`
fields that the controller sets. -/
structure EphemeralContainer where
  name : String
  image : String
  command : List String
  args : List String
  tty : Bool
  stdin : Bool
  resources : ResourceRequirements
  securityContext : Option SecurityContext
deriving DecidableEq, Repr

/-- Model of a regular container specification entry. -/
structure Container where
  name : String
  image : String
deriving DecidableEq, Repr

/-- Model of `corev1.PodSpec` restricted to the container lists. -/
structure PodSpec where
  containers : List Container
  ephemeralContainers : List EphemeralContainer
deriving DecidableEq, Repr

/-- Model of `corev1.Pod`: object metadata (name, namespace), spec, status. -/
structure Pod where
  name : String
  ns : String
  spec : PodSpec
  status : PodStatus
deriving DecidableEq, Repr

/-- The loop body of `getContainerStatus`: first status record whose name
matches wins; the Go zero value is returned when none matches. -/
def lookupStatus : List ContainerStatus → String → ContainerState
  | [], _ => zeroContainerState
  | s :: rest, containerName =>
    if s.name == containerName then s.state else lookupStatus rest containerName

/-- `getContainerStatus` retrieves the status of a container within a pod
(`pod_controller.go`). -/
def getContainerStatus (pod : Pod) (containerName : String) : ContainerState :=
  lookupStatus pod.status.containerStatuses containerName

/-- `getState` from `pod_controller.go`: the if/else chain over the three
nilable pointers, in source order. -/
def getState (state : ContainerState) : String :=
  match state.running, state.waiting, state.terminated with
  | some _, _, _ => "Running"
  | none, some _, _ => "Waiting"
  | none, none, some _ => "Terminated"
  | none, none, none => "unknown"

/-- `getStateReason` from `pod_controller.go`: the if/else chain over the
three nilable pointers, in source order. -/
def getStateReason (state : ContainerState) : String :=
  match state.running, state.waiting, state.terminated with
  | some _, _, _ => ""
  | none, some w, _ => w.reason
  | none, none, some t => t.reason
  | none, none, none => ""

/-- The `UpdateFunc` event-filter predicate from `SetupWithManager`: fires
exactly on a Running-to-Terminated transition of the container named
`"main"` whose termination reason is `"Completed"`. -/
def updateFunc (oldPod newPod : Pod) : Bool :=
  let oldStatus := getState (getContainerStatus oldPod "main")
  let newState := getContainerStatus newPod "main"
  let newStatus := getState newState
  let statusReason := getStateReason newState
  (oldStatus == "Running" && newStatus == "Terminated") && statusReason == "Completed"

theorem getState_eq_terminated_iff (s : ContainerState) :
    getState s = "Terminated" ↔
      s.running = none ∧ s.waiting = none ∧ ∃ t, s.terminated = some t := by
  obtain ⟨r, w, t⟩ := s
  cases r <;> cases w <;> cases t <;> simp [getState]

theorem getStateReason_of_terminated (s : ContainerState) (t : ContainerStateTerminated)
    (hr : s.running = none) (hw : s.waiting = none) (ht : s.terminated = some t) :
    getStateReason s = t.reason := by
  obtain ⟨r, w, t'⟩ := s
  cases hr; cases hw; cases ht
  rfl

/-- C1: the completion detector returns true iff the old snapshot's extracted
state for `"main"` is in the Running phase and the new snapshot's extracted
state is in the Terminated phase with termination reason `"Completed"`;
every other combination yields false. -/
theorem c1_detector_iff (oldPod newPod : Pod) :
    updateFunc oldPod newPod = true ↔
      getState (getContainerStatus oldPod "main") = "Running" ∧
      (getContainerStatus newPod "main").running = none ∧
      (getContainerStatus newPod "main").waiting = none ∧
      ∃ t, (getContainerStatus newPod "main").terminated = some t ∧
        t.reason = "Completed" := by
  generalize hold : getContainerStatus oldPod "main" = oldState
  generalize hnew : getContainerStatus newPod "main" = newState
  obtain ⟨r, w, t⟩ := newState
  cases r <;> cases w <;> cases t <;>
    simp [updateFunc, hold, hnew, getState, getStateReason]

/-- Model of the platform error classes the controller distinguishes
(`errors.IsNotFound` is the only test the source performs). -/
inductive KubeError where
  | notFound
  | conflict
  | other (msg : String)
deriving DecidableEq, Repr

/-- Model of `errors.IsNotFound`. -/
def KubeError.isNotFound : KubeError → Bool
  | .notFound => true
  | _ => false

/-- The delete-variant `Reconcile` (`internal/controller/pod_controller.go`):
`Get` the pod (not-found short-circuits to success, other errors are
returned), then `Delete` it (any error is returned).  The platform calls are
modelled as explicit arguments; `none` is the `(ctrl.Result{}, nil)` success
return. -/
def reconcileDelete (getResult : Except KubeError Pod)
    (deleteResult : Pod → Option KubeError) : Option KubeError :=
  match getResult with
  | .error e => if e.isNotFound then none else some e
  | .ok pod =>
    match deleteResult pod with
    | some e => some e
    | none => none

/-- The ephemeral container `ec` built inside `injectEphemeralContainer`:
the fixed helper that sends an interrupt signal to process id 1. -/
def ec : EphemeralContainer :=
  { name := "essential-container-sidecar"
    image := "busybox"
    command := ["/bin/sh"]
    args := ["-c", "kill -INT 1"]
    tty := false
    stdin := false
    resources := { limits := [], requests := [] }
    securityContext := some { capabilities := some { add := ["SYS_PTRACE"] } } }

/-- The `copied` pod of `injectEphemeralContainer`: a deep copy of the input
pod with `ec` appended to `Spec.EphemeralContainers`.  The input pod value
itself is left untouched (the Go code mutates only the deep copy). -/
def modifiedPod (pod : Pod) : Pod :=
  { pod with spec :=
      { pod.spec with ephemeralContainers := pod.spec.ephemeralContainers ++ [ec] } }

/-- The external collaborators of `injectEphemeralContainer`, modelled as
explicit functions: `json.Marshal` on pods (bytes modelled as `String`),
`strategicpatch.CreateTwoWayMergePatch` on the serialized representations
(its first argument is the possibly-nil `podJS`), and the patch submission
against the ephemeralcontainers sub-resource. -/
structure InjectEnv where
  marshal : Pod → Except String String
  createTwoWayMergePatch : Option String → String → Except String String
  patchPod : Pod → String → Option KubeError

/-- The possible returns of `injectEphemeralContainer`, keeping the wrapped
`fmt.Errorf` messages distinct from raw platform errors. -/
inductive InjectResult where
  | ok
  | debugJSONError (msg : String)
  | patchCreateError (msg : String)
  | podNotFoundError (ns name : String)
  | patchSubmitError (e : KubeError)
deriving DecidableEq, Repr

/-- `injectEphemeralContainer` (`src/unnamed/part_001`): serialize the pod
(`podJS, _ := json.Marshal(pod)` — the error is discarded and a failure
leaves `podJS` nil), build the modified copy, serialize it (failure is
wrapped and returned), compute the two-way merge patch (failure is wrapped
and returned), submit the patch (a not-found error is wrapped into a
distinct "pod not found" error; any other error is returned as is). -/
def injectEphemeralContainer (env : InjectEnv) (pod : Pod) : InjectResult :=
  let podJS : Option String := (env.marshal pod).toOption
  let copied := modifiedPod pod
  match env.marshal copied with
  | .error e => .debugJSONError e
  | .ok debugJS =>
    match env.createTwoWayMergePatch podJS debugJS with
    | .error e => .patchCreateError e
    | .ok patch =>
      match env.patchPod pod patch with
      | some e =>
        if e.isNotFound then .podNotFoundError pod.ns pod.name
        else .patchSubmitError e
      | none => .ok

/-- The outcome of the inject-variant `Reconcile`: success, a `Get` error,
or an `injectEphemeralContainer` error returned to the framework. -/
inductive ReconcileOutcome where
  | ok
  | getError (e : KubeError)
  | injectError (r : InjectResult)
deriving DecidableEq, Repr

/-- The inject-variant `Reconcile` (`src/unnamed/part_001`): `Get` the pod
(not-found short-circuits to success, other errors are returned), then call
`injectEphemeralContainer`; any non-nil error it returns is returned to the
framework (which re-queues on every non-nil error). -/
def reconcileInject (getResult : Except KubeError Pod) (env : InjectEnv) :
    ReconcileOutcome :=
  match getResult with
  | .error e => if e.isNotFound then .ok else .getError e
  | .ok pod =>
    match injectEphemeralContainer env pod with
    | .ok => .ok
    | r => .injectError r

/-- A concrete pod for counterexamples and witnesses: one spec container,
no ephemeral containers, `main` currently Running. -/
def podA : Pod :=
  { name := "app-1"
    ns := "default"
    spec := { containers := [{ name := "main", image := "app" }],
              ephemeralContainers := [] }
    status := { containerStatuses :=
      [{ name := "main",
         state := { running := some { startedAt := 0 },
                    waiting := none, terminated := none } }] } }

/-- C2 counterexample: with the pod present on the read but not found by the
delete call, the delete-variant `Reconcile` returns the not-found error
rather than success, refuting the claim that a not-found on the delete call
itself is surfaced as success. -/
theorem c2_counterexample :
    reconcileDelete (Except.ok podA) (fun _ => some KubeError.notFound) =
      some KubeError.notFound := by
  rfl

/-- C2 amended: the delete-variant `Reconcile` is idempotent only through
the initial read — a not-found `Get` returns success — while the result of
the delete call is passed through unchanged, so a not-found on the delete
call itself is returned as an error. -/
theorem c2_amended (deleteResult : Pod → Option KubeError) (pod : Pod) :
    reconcileDelete (Except.error KubeError.notFound) deleteResult = none ∧
    reconcileDelete (Except.ok pod) deleteResult = deleteResult pod := by
  constructor
  · rfl
  · simp only [reconcileDelete]
    cases deleteResult pod <;> rfl

/-- An environment whose patch submission always reports not-found, with
serialization and diff computation succeeding. -/
def envPatchNotFound : InjectEnv :=
  { marshal := fun _ => .ok "{}"
    createTwoWayMergePatch := fun _ _ => .ok "{}"
    patchPod := fun _ _ => some KubeError.notFound }

/-- C3 counterexample: when the patch submission fails with not-found,
`injectEphemeralContainer` returns the wrapped "pod not found" error and the
inject-variant `Reconcile` returns it to the framework — a retryable error —
refuting the claim that this outcome is not retried. -/
theorem c3_counterexample :
    injectEphemeralContainer envPatchNotFound podA =
        InjectResult.podNotFoundError "default" "app-1" ∧
      reconcileInject (Except.ok podA) envPatchNotFound ≠ ReconcileOutcome.ok := by
  constructor
  · rfl
  · decide

/-- C3 amended: a not-found patch-submission failure is reported distinctly
— wrapped into a "pod not found" error naming the unit, unlike other
submission errors — but it is still returned from `Reconcile` as an error,
so the framework re-queues it like any other failure. -/
theorem c3_amended (env : InjectEnv) (pod : Pod) (js patch : String)
    (h1 : env.marshal (modifiedPod pod) = Except.ok js)
    (h2 : env.createTwoWayMergePatch (env.marshal pod).toOption js = Except.ok patch)
    (h3 : env.patchPod pod patch = some KubeError.notFound) :
    injectEphemeralContainer env pod = InjectResult.podNotFoundError pod.ns pod.name ∧
      reconcileInject (Except.ok pod) env =
        ReconcileOutcome.injectError (InjectResult.podNotFoundError pod.ns pod.name) := by
  have hinj : injectEphemeralContainer env pod =
      InjectResult.podNotFoundError pod.ns pod.name := by
    simp only [injectEphemeralContainer, h1, h2, h3]
    rfl
  refine ⟨hinj, ?_⟩
  simp only [reconcileInject, hinj]

/-- Witness for `c3_amended` at the concrete environment `envPatchNotFound`
and pod `podA`. -/
theorem c3_amended_witness :
    injectEphemeralContainer envPatchNotFound podA =
        InjectResult.podNotFoundError podA.ns podA.name ∧
      reconcileInject (Except.ok podA) envPatchNotFound =
        ReconcileOutcome.injectError
          (InjectResult.podNotFoundError podA.ns podA.name) :=
  c3_amended envPatchNotFound podA "{}" "{}" rfl rfl rfl

/-- An environment whose serializer fails exactly on the original pod
`podA` (and succeeds on the modified copy), with diff computation and patch
submission succeeding. -/
def envMarshalFailsOnOriginal : InjectEnv :=
  { marshal := fun p => if p = podA then .error "marshal failure" else .ok "{}"
    createTwoWayMergePatch := fun _ _ => .ok "{}"
    patchPod := fun _ _ => none }

/-- C8 counterexample: serializing the original (before) representation of
`podA` fails, yet `injectEphemeralContainer` returns success — the error of
the first `json.Marshal` is discarded (`podJS, _ := json.Marshal(pod)`), so
not every serialization failure is surfaced. -/
theorem c8_counterexample :
    envMarshalFailsOnOriginal.marshal podA = Except.error "marshal failure" ∧
      injectEphemeralContainer envMarshalFailsOnOriginal podA = InjectResult.ok := by
  exact ⟨rfl, rfl⟩

/-- C8 amended: a failure to serialize the modified (after) representation
is fatal and surfaced as the wrapped debug-JSON error, while the error of
serializing the original representation is discarded (nil bytes are passed
on to the diff step). -/
theorem c8_amended (env : InjectEnv) (pod : Pod) (msg : String)
    (h : env.marshal (modifiedPod pod) = Except.error msg) :
    injectEphemeralContainer env pod = InjectResult.debugJSONError msg := by
  simp only [injectEphemeralContainer, h]

/-- An environment whose serializer always fails. -/
def envMarshalAlwaysFails : InjectEnv :=
  { marshal := fun _ => .error "bad pod"
    createTwoWayMergePatch := fun _ _ => .ok "{}"
    patchPod := fun _ _ => none }

/-- Witness for `c8_amended` at a concrete environment and pod. -/
theorem c8_amended_witness :
    injectEphemeralContainer envMarshalAlwaysFails podA =
      InjectResult.debugJSONError "bad pod" :=
  c8_amended envMarshalAlwaysFails podA "bad pod" rfl

/-- C4: the modified copy built by the injection strategy is the input pod
with exactly the helper container appended to its ephemeral-container list:
the pre-existing spec containers, ephemeral containers (in order), status
and metadata are all preserved, the final list is one longer, and the
appended entry is the fixed helper whose command sends an interrupt signal
to process id 1.  The input value itself is unchanged (the embedding is
pure; the Go code mutates only the deep copy). -/
theorem c4_modifiedPod_frame (pod : Pod) :
    (modifiedPod pod).spec.ephemeralContainers =
        pod.spec.ephemeralContainers ++ [ec] ∧
      (modifiedPod pod).spec.ephemeralContainers.length =
        pod.spec.ephemeralContainers.length + 1 ∧
      (modifiedPod pod).spec.containers = pod.spec.containers ∧
      (modifiedPod pod).status = pod.status ∧
      (modifiedPod pod).name = pod.name ∧
      (modifiedPod pod).ns = pod.ns ∧
      ec.name = "essential-container-sidecar" ∧
      ec.command = ["/bin/sh"] ∧
      ec.args = ["-c", "kill -INT 1"] := by
  refine ⟨rfl, ?_, rfl, rfl, rfl, rfl, rfl, rfl, rfl⟩
  simp [modifiedPod]

theorem lookupStatus_of_no_match (l : List ContainerStatus) (containerName : String)
    (h : ∀ s ∈ l, s.name ≠ containerName) :
    lookupStatus l containerName = zeroContainerState := by
  induction l with
  | nil => rfl
  | cons s rest ih =>
    have hs : s.name ≠ containerName := h s (List.mem_cons_self s rest)
    have hne : (s.name == containerName) = false := by
      simpa [beq_eq_false_iff_ne] using hs
    simp only [lookupStatus, hne, Bool.false_eq_true, if_false]
    exact ih fun t ht => h t (List.mem_cons_of_mem s ht)

theorem getState_of_absent (pod : Pod) (containerName : String)
    (h : ∀ s ∈ pod.status.containerStatuses, s.name ≠ containerName) :
    getState (getContainerStatus pod containerName) = "unknown" := by
  rw [getContainerStatus, lookupStatus_of_no_match _ _ h]
  rfl

/-- C7: the container-state extractor is a total function; when no status
record's name matches the requested name by exact string comparison it
returns the zero state — all three phase pointers nil, so the extracted
phase is neither Running, Waiting nor Terminated but `"unknown"`. -/
theorem c7_extractor_total_unknown (pod : Pod) (containerName : String)
    (h : ∀ s ∈ pod.status.containerStatuses, s.name ≠ containerName) :
    getContainerStatus pod containerName = zeroContainerState ∧
      getState (getContainerStatus pod containerName) = "unknown" :=
  ⟨lookupStatus_of_no_match pod.status.containerStatuses containerName h,
    getState_of_absent pod containerName h⟩

/-- A pod whose only status record is a sidecar, with no record named
`"main"`. -/
def podNoMain : Pod :=
  { name := "app-2"
    ns := "default"
    spec := { containers := [{ name := "pool", image := "pooler" }],
              ephemeralContainers := [] }
    status := { containerStatuses :=
      [{ name := "pool",
         state := { running := some { startedAt := 0 },
                    waiting := none, terminated := none } }] } }

/-- Witness for `c7_extractor_total_unknown` at the concrete pod
`podNoMain`. -/
theorem c7_witness :
    getContainerStatus podNoMain "main" = zeroContainerState ∧
      getState (getContainerStatus podNoMain "main") = "unknown" :=
  c7_extractor_total_unknown podNoMain "main" (by decide)

/-- C6: when the old snapshot has no status record named `"main"`, the
completion detector returns false whatever the new snapshot holds — there
is no observed Running state to transition from. -/
theorem c6_absent_old_no_completion (oldPod newPod : Pod)
    (h : ∀ s ∈ oldPod.status.containerStatuses, s.name ≠ "main") :
    updateFunc oldPod newPod = false := by
  have hz := getState_of_absent oldPod "main" h
  simp only [updateFunc, hz]
  rfl

/-- A pod whose `main` container is already Terminated with reason
`"Completed"`. -/
def podMainCompleted : Pod :=
  { name := "app-2"
    ns := "default"
    spec := { containers := [{ name := "main", image := "app" }],
              ephemeralContainers := [] }
    status := { containerStatuses :=
      [{ name := "main",
         state := { running := none, waiting := none,
                    terminated := some { exitCode := 0, signal := 0,
                                         reason := "Completed", message := "" } } }] } }

/-- Witness for `c6_absent_old_no_completion`: even when the new snapshot
already shows `main` Terminated with reason Completed, an old snapshot
without a `main` record yields false. -/
theorem c6_witness : updateFunc podNoMain podMainCompleted = false :=
  c6_absent_old_no_completion podNoMain podMainCompleted (by decide)

/-- C10: when several status records carry the requested name, the
extractor returns the state of the first matching record in list order and
ignores all later matches. -/
theorem c10_first_match (pod : Pod) (containerName : String)
    (pre : List ContainerStatus) (s : ContainerStatus) (rest : List ContainerStatus)
    (hl : pod.status.containerStatuses = pre ++ s :: rest)
    (hpre : ∀ t ∈ pre, t.name ≠ containerName)
    (hs : s.name = containerName) :
    getContainerStatus pod containerName = s.state := by
  rw [getContainerStatus, hl]
  clear hl
  induction pre with
  | nil => simp [lookupStatus, hs]
  | cons ph pt ih =>
    have hph : ph.name ≠ containerName := hpre ph (List.mem_cons_self ph pt)
    have hne : (ph.name == containerName) = false := by
      simpa [beq_eq_false_iff_ne] using hph
    simp only [List.cons_append, lookupStatus, hne, Bool.false_eq_true, if_false]
    exact ih fun t ht => hpre t (List.mem_cons_of_mem ph ht)

/-- A pod with two status records both named `"main"`: the first Running,
the second Terminated. -/
def podDupMain : Pod :=
  { name := "app-3"
    ns := "default"
    spec := { containers := [{ name := "main", image := "app" }],
              ephemeralContainers := [] }
    status := { containerStatuses :=
      [{ name := "main",
         state := { running := some { startedAt := 0 },
                    waiting := none, terminated := none } },
       { name := "main",
         state := { running := none, waiting := none,
                    terminated := some { exitCode := 0, signal := 0,
                                         reason := "Completed", message := "" } } }] } }

/-- Witness for `c10_first_match` at the concrete pod `podDupMain`: the
first (Running) record wins over the later Terminated one. -/
theorem c10_witness :
    getContainerStatus podDupMain "main" =
      { running := some { startedAt := 0 }, waiting := none, terminated := none } :=
  c10_first_match podDupMain "main" []
    { name := "main",
      state := { running := some { startedAt := 0 },
                 waiting := none, terminated := none } }
    [{ name := "main",
       state := { running := none, waiting := none,
                  terminated := some { exitCode := 0, signal := 0,
                                       reason := "Completed", message := "" } } }]
    rfl (by decide) rfl

/-- Erase the exit code stored in a Terminated state (set it to zero),
leaving everything else unchanged. -/
def zeroExitTerminated (t : ContainerStateTerminated) : ContainerStateTerminated :=
  { t with exitCode := 0 }

/-- Erase the exit codes of a container state. -/
def zeroExitState (s : ContainerState) : ContainerState :=
  { s with terminated := s.terminated.map zeroExitTerminated }

/-- Erase the exit codes of a status record. -/
def zeroExitStatus (cs : ContainerStatus) : ContainerStatus :=
  { cs with state := zeroExitState cs.state }

/-- Erase every exit code stored anywhere in a pod's status: two pods agree
up to exit codes exactly when their images under this map are equal. -/
def zeroExitPod (p : Pod) : Pod :=
  { p with status :=
      { containerStatuses := p.status.containerStatuses.map zeroExitStatus } }

theorem lookupStatus_zeroExit (l : List ContainerStatus) (containerName : String) :
    lookupStatus (l.map zeroExitStatus) containerName =
      zeroExitState (lookupStatus l containerName) := by
  induction l with
  | nil => rfl
  | cons s rest ih =>
    simp only [List.map_cons, lookupStatus, zeroExitStatus]
    by_cases h : (s.name == containerName) = true
    · simp [h]
    · simp only [Bool.not_eq_true] at h
      simp [h, ih]

theorem getState_zeroExit (s : ContainerState) :
    getState (zeroExitState s) = getState s := by
  obtain ⟨r, w, t⟩ := s
  cases r <;> cases w <;> cases t <;> rfl

theorem getStateReason_zeroExit (s : ContainerState) :
    getStateReason (zeroExitState s) = getStateReason s := by
  obtain ⟨r, w, t⟩ := s
  cases r <;> cases w <;> cases t <;> rfl

theorem updateFunc_zeroExit (oldPod newPod : Pod) :
    updateFunc (zeroExitPod oldPod) (zeroExitPod newPod) = updateFunc oldPod newPod := by
  simp only [updateFunc, getContainerStatus, zeroExitPod, lookupStatus_zeroExit,
    getState_zeroExit, getStateReason_zeroExit]

/-- C9: the completion detector never reads the exit code — any two
snapshot pairs that agree once every Terminated exit code is erased get the
same verdict; the decision depends only on the lifecycle phases and the new
state's reason string. -/
theorem c9_exit_code_independent (oldPod newPod oldPod' newPod' : Pod)
    (ho : zeroExitPod oldPod = zeroExitPod oldPod')
    (hn : zeroExitPod newPod = zeroExitPod newPod') :
    updateFunc oldPod newPod = updateFunc oldPod' newPod' := by
  rw [← updateFunc_zeroExit oldPod newPod, ho, hn, updateFunc_zeroExit]

/-- The pod `podMainCompleted` with a nonzero exit code recorded for the
same Completed termination. -/
def podMainCompleted137 : Pod :=
  { name := "app-2"
    ns := "default"
    spec := { containers := [{ name := "main", image := "app" }],
              ephemeralContainers := [] }
    status := { containerStatuses :=
      [{ name := "main",
         state := { running := none, waiting := none,
                    terminated := some { exitCode := 137, signal := 0,
                                         reason := "Completed", message := "" } } }] } }

/-- Witness for `c9_exit_code_independent`: the verdict on a pair whose new
snapshot records exit code 0 equals the verdict when it records 137. -/
theorem c9_witness :
    updateFunc podA podMainCompleted = updateFunc podA podMainCompleted137 :=
  c9_exit_code_independent podA podMainCompleted podA podMainCompleted137 rfl (by decide)

/-- Modelled from the spec: strategic-merge-patch application
(`strategicpatch`, not part of this repository) restricted to the
ephemeral-container list, whose patch merge key is the container name —
each patch entry replaces the same-named existing entries in place and is
appended when no entry carries its name (spec section 4.4 step 4). -/
def mergeByName (orig patchList : List EphemeralContainer) :
    List EphemeralContainer :=
  (orig.map fun o =>
    match patchList.find? (fun p => p.name == o.name) with
    | some p => p
    | none => o) ++
  patchList.filter (fun p => !(orig.any fun o => o.name == p.name))

/-- Modelled from the spec: two-way merge patch creation
(`strategicpatch.CreateTwoWayMergePatch`, not part of this repository)
restricted to the ephemeral-container list — the patch holds exactly the
entries of `after` not already present in `before`, so existing entries are
preserved and only the new entry is added (spec section 4.4 step 4). -/
def createTwoWayMergePatchECs (before after : List EphemeralContainer) :
    List EphemeralContainer :=
  after.filter (fun a => !(before.any fun b => decide (b = a)))

theorem anyName_eq_false (l : List EphemeralContainer) (x : EphemeralContainer)
    (h : ∀ c ∈ l, c.name ≠ x.name) :
    (l.any fun o => o.name == x.name) = false := by
  rw [List.any_eq_false]
  intro a ha
  simpa using h a ha

theorem mapMerge_of_fresh (l : List EphemeralContainer) (x : EphemeralContainer)
    (h : ∀ c ∈ l, c.name ≠ x.name) :
    (l.map fun o =>
      match [x].find? (fun p => p.name == o.name) with
      | some p => p
      | none => o) = l := by
  have key : ∀ o ∈ l,
      (match [x].find? (fun p => p.name == o.name) with
       | some p => p
       | none => o) = o := by
    intro o ho
    have ha : x.name ≠ o.name := fun he => h o ho he.symm
    have hb : (x.name == o.name) = false := by simpa [beq_eq_false_iff_ne] using ha
    simp [List.find?, hb]
  exact (List.map_congr_left key).trans (List.map_id' l)

theorem filterMerge_of_fresh (l : List EphemeralContainer) (x : EphemeralContainer)
    (h : (l.any fun o => o.name == x.name) = false) :
    ([x].filter fun p => !(l.any fun o => o.name == p.name)) = [x] := by
  simp [List.filter, h]

theorem createPatch_of_fresh (l : List EphemeralContainer) (x : EphemeralContainer)
    (h : ∀ c ∈ l, c ≠ x) :
    createTwoWayMergePatchECs l (l ++ [x]) = [x] := by
  rw [createTwoWayMergePatchECs, List.filter_append]
  have h1 : (l.filter fun a => !(l.any fun b => decide (b = a))) = [] := by
    rw [List.filter_eq_nil_iff]
    intro a ha
    have hmem : (l.any fun b => decide (b = a)) = true :=
      List.any_eq_true.mpr ⟨a, ha, by simp⟩
    simp [hmem]
  have h2 : (l.any fun b => decide (b = x)) = false := by
    rw [List.any_eq_false]
    intro b hb
    simpa using h b hb
  rw [h1, List.nil_append]
  simp [List.filter_cons, h2]

theorem mergeByName_append_of_fresh (l : List EphemeralContainer)
    (x : EphemeralContainer) (h : ∀ c ∈ l, c.name ≠ x.name) :
    mergeByName l [x] = l ++ [x] := by
  rw [mergeByName, mapMerge_of_fresh l x h,
    filterMerge_of_fresh l x (anyName_eq_false l x h)]

theorem mergeByName_idem_of_fresh (l : List EphemeralContainer)
    (x : EphemeralContainer) (h : ∀ c ∈ l, c.name ≠ x.name) :
    mergeByName (l ++ [x]) [x] = l ++ [x] := by
  rw [mergeByName, List.map_append, mapMerge_of_fresh l x h]
  have hx : ([x].map fun o =>
      match [x].find? (fun p => p.name == o.name) with
      | some p => p
      | none => o) = [x] := by
    simp [List.find?]
  have hany : ((l ++ [x]).any fun o => o.name == x.name) = true := by
    simp [List.any_append]
  rw [hx]
  simp [List.filter, hany]

/-- C5: round-trip of the diff step — with the helper's name fresh in the
unit (the valid-object case, since container names within a unit are
unique), applying the two-way merge patch computed from the before/after
ephemeral-container lists to the before list reproduces the after list
exactly, and re-applying the same patch to the already-patched list is a
no-op under merge-by-name. -/
theorem c5_patch_round_trip (pod : Pod)
    (hfresh : ∀ c ∈ pod.spec.ephemeralContainers, c.name ≠ ec.name) :
    mergeByName pod.spec.ephemeralContainers
        (createTwoWayMergePatchECs pod.spec.ephemeralContainers
          (modifiedPod pod).spec.ephemeralContainers) =
      (modifiedPod pod).spec.ephemeralContainers ∧
    mergeByName
        (mergeByName pod.spec.ephemeralContainers
          (createTwoWayMergePatchECs pod.spec.ephemeralContainers
            (modifiedPod pod).spec.ephemeralContainers))
        (createTwoWayMergePatchECs pod.spec.ephemeralContainers
          (modifiedPod pod).spec.ephemeralContainers) =
      mergeByName pod.spec.ephemeralContainers
        (createTwoWayMergePatchECs pod.spec.ephemeralContainers
          (modifiedPod pod).spec.ephemeralContainers) := by
  have hne : ∀ c ∈ pod.spec.ephemeralContainers, c ≠ ec := fun c hc he =>
    hfresh c hc (by rw [he])
  have hp : createTwoWayMergePatchECs pod.spec.ephemeralContainers
      (modifiedPod pod).spec.ephemeralContainers = [ec] :=
    createPatch_of_fresh pod.spec.ephemeralContainers ec hne
  have happ : mergeByName pod.spec.ephemeralContainers [ec] =
      pod.spec.ephemeralContainers ++ [ec] :=
    mergeByName_append_of_fresh pod.spec.ephemeralContainers ec hfresh
  have hidem : mergeByName (pod.spec.ephemeralContainers ++ [ec]) [ec] =
      pod.spec.ephemeralContainers ++ [ec] :=
    mergeByName_idem_of_fresh pod.spec.ephemeralContainers ec hfresh
  refine ⟨?_, ?_⟩
  · rw [hp, happ]; rfl
  · rw [hp, happ, hidem]

/-- Witness for `c5_patch_round_trip` at the concrete pod `podA` (whose
ephemeral-container list is empty, so the helper name is fresh). -/
theorem c5_witness :
    mergeByName podA.spec.ephemeralContainers
        (createTwoWayMergePatchECs podA.spec.ephemeralContainers
          (modifiedPod podA).spec.ephemeralContainers) =
      (modifiedPod podA).spec.ephemeralContainers ∧
    mergeByName
        (mergeByName podA.spec.ephemeralContainers
          (createTwoWayMergePatchECs podA.spec.ephemeralContainers
            (modifiedPod podA).spec.ephemeralContainers))
        (createTwoWayMergePatchECs podA.spec.ephemeralContainers
          (modifiedPod podA).spec.ephemeralContainers) =
      mergeByName podA.spec.ephemeralContainers
        (createTwoWayMergePatchECs podA.spec.ephemeralContainers
          (modifiedPod podA).spec.ephemeralContainers) :=
  c5_patch_round_trip podA (by simp [podA])

end EssentialContainers
